import Mathlib

/-!
Verification of the attribute-carrier adapter of the
`opentelemetry-trace-sqs` repository.

The authoritative code is the latest revision of package `otelsqs`
(the map-based carrier: `SqsCarrierAttributes` holding
`messageAttributes map[string]types.MessageAttributeValue` and a
`propagator`, with `Inject` returning a typed error and `Extract`
taking a context).  Go maps are embedded as association lists with
overwrite-on-insert; a nil map is `Option.none`, a non-nil (possibly
empty) map is `Option.some`.  The external propagator
(`go.opentelemetry.io/contrib/propagators/b3`) is not part of the
repository; it is modelled abstractly as a record of the writes its
inject routine performs through `Set` and the function its extract
routine computes through `Get`, with a concrete B3 single-header
instance modelled from the spec.
-/

set_option autoImplicit false

namespace Otelsqs

/-- Span context: the trace-context payload carried by a Go `context.Context`
(trace identifier, span identifier, sampling flag). -/
structure SpanContext where
  traceID : String
  spanID : String
  sampled : Bool
deriving DecidableEq, Repr

/-- Go `context.Context`, as far as tracing is concerned: either carries a
span context or does not (background context). -/
abbrev Context := Option SpanContext

/-- Embedding of `types.MessageAttributeValue` (aws-sdk-go-v2 sqs types):
`DataType *string`, `StringValue *string`, `BinaryValue []byte`.
Go nil pointers / nil slices are `none`. -/
structure MessageAttributeValue where
  dataType : Option String
  stringValue : Option String
  binaryValue : Option (List Nat)
deriving DecidableEq, Repr

/-- A non-nil Go `map[string]types.MessageAttributeValue`, embedded as an
association list with unique keys maintained by overwrite-on-insert. -/
abbrev AttrMap := List (String × MessageAttributeValue)

/-- Go map read `m[key]`: first entry with the given key, if any. -/
def attrLookup : AttrMap → String → Option MessageAttributeValue
  | [], _ => none
  | (k, v) :: rest, key => if k = key then some v else attrLookup rest key

/-- Go map membership test `_, found := m[key]`. -/
def attrHasKey (m : AttrMap) (key : String) : Bool :=
  (attrLookup m key).isSome

/-- Go map write `m[key] = v`: overwrite the existing entry or append. -/
def attrInsert : AttrMap → String → MessageAttributeValue → AttrMap
  | [], key, v => [(key, v)]
  | (k, w) :: rest, key, v =>
      if k = key then (key, v) :: rest else (k, w) :: attrInsert rest key v

/-- The abstract external propagator (interface boundary of
`go.opentelemetry.io/otel/propagation.TextMapPropagator`):
`injectWrites` lists the key/value pairs its `Inject(ctx, carrier)`
writes through the carrier's `Set`, in order; `extract` is what its
`Extract(ctx, carrier)` returns, reading through the carrier's `Get`. -/
structure Propagator where
  injectWrites : Context → List (String × String)
  extract : Context → (String → String) → Context

/-- Embedding of `const sqsMessageAttributeLimit = 10`. -/
def sqsMessageAttributeLimit : Nat := 10

/-- Embedding of `const stringType = "String"`. -/
def stringType : String := "String"

/-- Embedding of the typed errors `ErrMaxAttrLimit` and
`ErrMessageAttributesIsNil` declared in package otelsqs. -/
inductive SqsError where
  | errMaxAttrLimit
  | errMessageAttributesIsNil
deriving DecidableEq, Repr

/-- Error message of each typed error, as written in `errors.New`. -/
def SqsError.message : SqsError → String
  | .errMaxAttrLimit => "max attribute limit reached"
  | .errMessageAttributesIsNil => "message attributes is nil"

/-- Embedding of `SqsCarrierAttributes`: a possibly-nil reference to the
caller's attribute map, plus the propagator chosen at construction. -/
structure SqsCarrierAttributes where
  messageAttributes : Option AttrMap
  propagator : Propagator

namespace SqsCarrierAttributes

/-- Embedding of `WithPropagator`: sets the carrier's propagator. -/
def WithPropagator (c : SqsCarrierAttributes) (p : Propagator) :
    SqsCarrierAttributes :=
  { c with propagator := p }

/-- Embedding of the method `attach`: binds the carrier to a non-nil map.
The Go code panics on a nil map; both callers (`Inject`, `Extract`) check
for nil first, so the panic branch is unreachable and `attach` takes the
non-nil map directly. -/
def attach (c : SqsCarrierAttributes) (m : AttrMap) : SqsCarrierAttributes :=
  { c with messageAttributes := some m }

/-- Embedding of the method `Get`: empty string when the map is nil, the key
is absent, or the entry's `StringValue` is nil; else the pointed-to string. -/
def Get (c : SqsCarrierAttributes) (key : String) : String :=
  match c.messageAttributes with
  | none => ""
  | some m =>
    match attrLookup m key with
    | none => ""
    | some attr =>
      match attr.stringValue with
      | none => ""
      | some s => s

/-- Embedding of the method `Set`: no-op when the map is nil, otherwise
write a `String`-typed attribute holding the value. -/
def Set (c : SqsCarrierAttributes) (key value : String) :
    SqsCarrierAttributes :=
  match c.messageAttributes with
  | none => c
  | some m =>
    let m2 := attrInsert m key ⟨some stringType, some value, none⟩
    { c with messageAttributes := some m2 }

/-- Embedding of the method `Keys`: all keys of the attached map (empty when
nil, since ranging over a nil Go map yields nothing). -/
def Keys (c : SqsCarrierAttributes) : List String :=
  match c.messageAttributes with
  | none => []
  | some m => m.map Prod.fst

/-- Result of `Inject`: the returned error (none on success), the carrier
afterwards, and the caller's map afterwards (the carrier aliases the
caller's map, so its final attachment is the caller's map's final value). -/
structure InjectResult where
  err : Option SqsError
  carrier : SqsCarrierAttributes
  store : Option AttrMap

/-- Embedding of the method `Inject`: reject a nil map with
`ErrMessageAttributesIsNil`; reject a map holding `sqsMessageAttributeLimit`
or more entries with `ErrMaxAttrLimit`; otherwise attach and let the
propagator write through `Set`. -/
def Inject (c : SqsCarrierAttributes) (ctx : Context) (m : Option AttrMap) :
    InjectResult :=
  match m with
  | none => ⟨some .errMessageAttributesIsNil, c, none⟩
  | some attrs =>
    if sqsMessageAttributeLimit ≤ attrs.length then
      ⟨some .errMaxAttrLimit, c, some attrs⟩
    else
      let c1 := c.attach attrs
      let c2 := (c1.propagator.injectWrites ctx).foldl
        (fun cc kv => cc.Set kv.1 kv.2) c1
      ⟨none, c2, c2.messageAttributes⟩

/-- Embedding of the method `Extract`: a nil map returns the input context
unchanged; otherwise attach and delegate to the propagator's extract,
which reads through `Get`.  Returns the context and the carrier afterwards. -/
def Extract (c : SqsCarrierAttributes) (ctx : Context) (m : Option AttrMap) :
    Context × SqsCarrierAttributes :=
  match m with
  | none => (ctx, c)
  | some attrs =>
    let c1 := c.attach attrs
    (c1.propagator.extract ctx (fun k => c1.Get k), c1)

end SqsCarrierAttributes

/-- Embedding of `SetTextMapPropagator`: assignment to the package-level
mutable default `defaultSqsPropagator`, modelled by explicit state passing
(old global in, new global out). -/
def SetTextMapPropagator (p : Propagator) (_old : Propagator) : Propagator :=
  p

/-- Embedding of `NewCarrier`: builds a carrier with no attachment whose
propagator is the current value of the package-level default
(`c := &SqsCarrierAttributes{}; return c.WithPropagator(defaultSqsPropagator)`). -/
def NewCarrier (defaultSqsPropagator : Propagator) : SqsCarrierAttributes :=
  SqsCarrierAttributes.WithPropagator
    { messageAttributes := none, propagator := defaultSqsPropagator }
    defaultSqsPropagator

/-- Modelled from the spec: hex digit as accepted in lowercase B3
identifiers (the B3 propagator library is external to the repository). -/
def isHexDigit (c : Char) : Bool :=
  c.isDigit || ('a' ≤ c && c ≤ 'f')

/-- Modelled from the spec: validity of a B3 identifier of width `n` —
right length, all lowercase hex, not all zeros. -/
def validHexId (cs : List Char) (n : Nat) : Bool :=
  (cs.length == n && cs.all isHexDigit) && !(cs == List.replicate n '0')

/-- Modelled from the spec: sampling flag character of the B3 single
header. -/
def sampledChar (b : Bool) : Char :=
  if b then '1' else '0'

/-- Modelled from the spec: character data of the B3 single-header compact
trace-context format written by the external default propagator
(`go.opentelemetry.io/contrib/propagators/b3`, not part of this
repository): `traceID-spanID-samplingFlag`. -/
def b3SingleData (sc : SpanContext) : List Char :=
  sc.traceID.data ++ '-' :: sc.spanID.data ++ '-' :: [sampledChar sc.sampled]

/-- Modelled from the spec: the B3 single header as a string. -/
def b3Single (sc : SpanContext) : String :=
  ⟨b3SingleData sc⟩

/-- Modelled from the spec: decoding of the B3 single header.  A 32-hex
trace id, a dash, a 16-hex span id, a dash and a one-character sampling
flag; anything else is undecodable and yields no span context. -/
def parseB3 (s : String) : Option SpanContext :=
  let cs := s.data
  let t := cs.take 32
  match cs.drop 32 with
  | '-' :: r2 =>
    let sp := r2.take 16
    match r2.drop 16 with
    | ['-', f] =>
      if (validHexId t 32 && validHexId sp 16) && (f == '1' || f == '0') then
        some ⟨⟨t⟩, ⟨sp⟩, f == '1'⟩
      else
        none
    | _ => none
  | _ => none

/-- Modelled from the spec: validity of a span context — valid (nonzero,
32-hex) trace identifier and valid (nonzero, 16-hex) span identifier. -/
def validSpanContext (sc : SpanContext) : Bool :=
  validHexId sc.traceID.data 32 && validHexId sc.spanID.data 16

/-- Modelled from the spec: the default B3 single-header propagator.  Its
inject routine writes the single key `b3` when the context holds a valid
span context (and writes nothing otherwise); its extract routine decodes
the `b3` key and falls back to the input context when undecodable. -/
def b3Propagator : Propagator where
  injectWrites ctx :=
    match ctx with
    | none => []
    | some sc => if validSpanContext sc then [("b3", b3Single sc)] else []
  extract ctx get :=
    match parseB3 (get "b3") with
    | some sc => some sc
    | none => ctx

/-- Map-level effect of a list of propagator writes performed through the
carrier's `Set` on an attached map. -/
def storeOfWrites (ws : List (String × String)) (m : AttrMap) : AttrMap :=
  ws.foldl (fun mm kv => attrInsert mm kv.1 ⟨some stringType, some kv.2, none⟩) m

/-- A read-path call: `Get key` or `Keys`. -/
inductive ReadOp where
  | get : String → ReadOp
  | keys : ReadOp

/-- State-threaded form of the method `Get`: its Go body only reads the
attached map (no assignment), so the carrier state after the call is the
state before it. -/
def GetThreaded (c : SqsCarrierAttributes) (key : String) :
    String × SqsCarrierAttributes :=
  (c.Get key, c)

/-- State-threaded form of the method `Keys`: its Go body only ranges over
the attached map (no assignment), so the carrier state after the call is
the state before it. -/
def KeysThreaded (c : SqsCarrierAttributes) :
    List String × SqsCarrierAttributes :=
  (c.Keys, c)

/-- Runs a sequence of read-path calls, threading the carrier state. -/
def runReadOps : List ReadOp → SqsCarrierAttributes → SqsCarrierAttributes
  | [], c => c
  | ReadOp.get k :: rest, c => runReadOps rest (GetThreaded c k).2
  | ReadOp.keys :: rest, c => runReadOps rest (KeysThreaded c).2

/-! Helper lemmas. -/

/-- Looking up the key just written finds the written value. -/
theorem attrLookup_attrInsert_self (m : AttrMap) (k : String)
    (v : MessageAttributeValue) :
    attrLookup (attrInsert m k v) k = some v := by
  induction m with
  | nil => simp [attrInsert, attrLookup]
  | cons p rest ih =>
    obtain ⟨k1, v1⟩ := p
    by_cases hk : k1 = k
    · simp [attrInsert, hk, attrLookup]
    · simp [attrInsert, hk, attrLookup, ih]

/-- Writing an already-present key keeps the entry count; writing a fresh
key grows it by one. -/
theorem length_attrInsert (m : AttrMap) (k : String)
    (v : MessageAttributeValue) :
    (attrInsert m k v).length =
      if attrHasKey m k then m.length else m.length + 1 := by
  induction m with
  | nil => simp [attrInsert, attrHasKey, attrLookup]
  | cons p rest ih =>
    obtain ⟨k1, v1⟩ := p
    by_cases hk : k1 = k
    · simp [attrInsert, hk, attrHasKey, attrLookup]
    · simp only [attrInsert, hk, if_false, List.length_cons, ih, attrHasKey,
        attrLookup, if_neg hk]
      by_cases hmem : (attrLookup rest k).isSome
      · simp [hmem]
      · simp [hmem]

/-- The key just written is present afterwards. -/
theorem attrHasKey_attrInsert_self (m : AttrMap) (k : String)
    (v : MessageAttributeValue) :
    attrHasKey (attrInsert m k v) k = true := by
  simp [attrHasKey, attrLookup_attrInsert_self]

/-- The key just written is among the keys afterwards. -/
theorem mem_map_fst_attrInsert (m : AttrMap) (k : String)
    (v : MessageAttributeValue) :
    k ∈ (attrInsert m k v).map Prod.fst := by
  induction m with
  | nil => simp [attrInsert]
  | cons p rest ih =>
    obtain ⟨k1, v1⟩ := p
    by_cases hk : k1 = k
    · simp [attrInsert, hk]
    · simp only [attrInsert, hk, if_false, List.map_cons, List.mem_cons]
      exact Or.inr ih

/-- Effect of `Set` on an attached carrier. -/
theorem Set_attached (c : SqsCarrierAttributes) (m : AttrMap)
    (k v : String) (h : c.messageAttributes = some m) :
    c.Set k v = { c with messageAttributes := some (attrInsert m k ⟨some stringType, some v, none⟩) } := by
  obtain ⟨mm, p⟩ := c
  simp only at h
  subst h
  simp [SqsCarrierAttributes.Set]

/-- Effect of `Set` on an unattached carrier: identity. -/
theorem Set_unattached (c : SqsCarrierAttributes) (k v : String)
    (h : c.messageAttributes = none) :
    c.Set k v = c := by
  obtain ⟨mm, p⟩ := c
  simp only at h
  subst h
  simp [SqsCarrierAttributes.Set]

/-- A fold of `Set` calls over an attached carrier performs exactly the
map-level writes and touches nothing else. -/
theorem foldl_Set_attached (ws : List (String × String))
    (c : SqsCarrierAttributes) (m : AttrMap)
    (h : c.messageAttributes = some m) :
    ws.foldl (fun cc kv => cc.Set kv.1 kv.2) c =
      { c with messageAttributes := some (storeOfWrites ws m) } := by
  induction ws generalizing c m with
  | nil =>
    obtain ⟨mm, p⟩ := c
    simp only at h
    subst h
    simp [storeOfWrites]
  | cons kv rest ih =>
    simp only [List.foldl_cons, storeOfWrites, Set_attached c m kv.1 kv.2 h]
    rw [ih _ _ rfl]
    simp [storeOfWrites]

/-- Decoding the B3 single header written for a valid span context
recovers that span context. -/
theorem parseB3_b3Single (sc : SpanContext) (h : validSpanContext sc = true) :
    parseB3 (b3Single sc) = some sc := by
  obtain ⟨⟨td⟩, ⟨sd⟩, b⟩ := sc
  simp only [validSpanContext, Bool.and_eq_true] at h
  obtain ⟨ht, hs⟩ := h
  have hlt : td.length = 32 := by
    have := ht
    simp only [validHexId, Bool.and_eq_true, beq_iff_eq] at this
    exact this.1.1
  have hls : sd.length = 16 := by
    have := hs
    simp only [validHexId, Bool.and_eq_true, beq_iff_eq] at this
    exact this.1.1
  have e1 : ∀ f : Char, (td ++ '-' :: (sd ++ '-' :: [f])).take 32 = td :=
    fun _ => List.take_left' hlt
  have e2 : ∀ f : Char, (td ++ '-' :: (sd ++ '-' :: [f])).drop 32
      = '-' :: (sd ++ '-' :: [f]) := fun _ => List.drop_left' hlt
  have e3 : ∀ f : Char, (sd ++ '-' :: [f]).take 16 = sd :=
    fun _ => List.take_left' hls
  have e4 : ∀ f : Char, (sd ++ '-' :: [f]).drop 16 = '-' :: [f] :=
    fun _ => List.drop_left' hls
  cases b <;>
    simp [parseB3, b3Single, b3SingleData, sampledChar, e1, e2, e3, e4, ht, hs]

/-! Claim theorems. -/

/-- C1: for every trace context with a valid trace identifier, injecting it
into an empty attribute store via the carrier's `Inject` and then
extracting from that same store via the carrier's `Extract` yields a
context whose trace identifier equals the original. -/
theorem C1_inject_extract_roundtrip (sc : SpanContext)
    (h : validSpanContext sc = true) :
    ((NewCarrier b3Propagator).Inject (some sc) (some [])).err = none ∧
    ∃ sc2 : SpanContext,
      ((NewCarrier b3Propagator).Extract none
          (((NewCarrier b3Propagator).Inject (some sc) (some [])).store)).1
        = some sc2 ∧
      sc2.traceID = sc.traceID := by
  have hinj : (NewCarrier b3Propagator).Inject (some sc) (some []) =
      ⟨none,
        ⟨some [("b3", ⟨some stringType, some (b3Single sc), none⟩)],
          b3Propagator⟩,
        some [("b3", ⟨some stringType, some (b3Single sc), none⟩)]⟩ := by
    simp [NewCarrier, SqsCarrierAttributes.WithPropagator,
      SqsCarrierAttributes.Inject, SqsCarrierAttributes.attach,
      sqsMessageAttributeLimit, b3Propagator, h,
      SqsCarrierAttributes.Set, attrInsert]
  refine ⟨by rw [hinj], sc, ?_, rfl⟩
  rw [hinj]
  simp [SqsCarrierAttributes.Extract, SqsCarrierAttributes.attach,
    NewCarrier, SqsCarrierAttributes.WithPropagator, b3Propagator,
    SqsCarrierAttributes.Get, attrLookup, parseB3_b3Single sc h]

/-- C1 witness: the round-trip at a concrete valid span context. -/
theorem C1_witness :
    validSpanContext
        ⟨"0123456789abcdef0123456789abcdef", "0123456789abcdef", true⟩
      = true ∧
    (((NewCarrier b3Propagator).Inject
        (some ⟨"0123456789abcdef0123456789abcdef", "0123456789abcdef", true⟩)
        (some [])).err = none ∧
    ∃ sc2 : SpanContext,
      ((NewCarrier b3Propagator).Extract none
          (((NewCarrier b3Propagator).Inject
              (some ⟨"0123456789abcdef0123456789abcdef",
                "0123456789abcdef", true⟩)
              (some [])).store)).1
        = some sc2 ∧
      sc2.traceID = "0123456789abcdef0123456789abcdef") :=
  ⟨by decide,
    C1_inject_extract_roundtrip
      ⟨"0123456789abcdef0123456789abcdef", "0123456789abcdef", true⟩
      (by decide)⟩

/-- C2: for every attribute store already holding at least
`sqsMessageAttributeLimit` (10) entries, `Inject` performs no writes (the
store and the carrier are returned unchanged) and signals the
`ErrMaxAttrLimit` error (message "max attribute limit reached"). -/
theorem C2_inject_capacity (c : SqsCarrierAttributes) (ctx : Context)
    (m : AttrMap) (h : sqsMessageAttributeLimit ≤ m.length) :
    c.Inject ctx (some m) =
      ⟨some SqsError.errMaxAttrLimit, c, some m⟩ := by
  simp [SqsCarrierAttributes.Inject, h]

/-- C2 witness: a carrier and a ten-entry store, with the capacity error
and the unchanged store observed concretely. -/
theorem C2_witness :
    sqsMessageAttributeLimit ≤
        (List.replicate 10 (("k", ⟨some stringType, some "v", none⟩) :
          String × MessageAttributeValue)).length ∧
    (NewCarrier b3Propagator).Inject none
        (some (List.replicate 10 (("k", ⟨some stringType, some "v", none⟩) :
          String × MessageAttributeValue))) =
      ⟨some SqsError.errMaxAttrLimit, NewCarrier b3Propagator,
        some (List.replicate 10 (("k", ⟨some stringType, some "v", none⟩) :
          String × MessageAttributeValue))⟩ :=
  ⟨by decide, C2_inject_capacity _ _ _ (by decide)⟩

/-- C3: for every carrier and context, `Inject` with a nil attribute store
returns the typed `ErrMessageAttributesIsNil` error (message "message
attributes is nil") without panicking (the embedding is total: the nil
check precedes the panicking `attach`), and performs no writes — carrier
and store are returned unchanged. -/
theorem C3_inject_nil_store (c : SqsCarrierAttributes) (ctx : Context) :
    c.Inject ctx none =
      ⟨some SqsError.errMessageAttributesIsNil, c, none⟩ :=
  rfl

/-- C4: for every carrier and input context, `Extract` with a nil attribute
store returns the input context unchanged and the carrier unchanged; the
nil branch never consults the propagator. -/
theorem C4_extract_nil_store (c : SqsCarrierAttributes) (ctx : Context) :
    c.Extract ctx none = (ctx, c) :=
  rfl

/-- C5: for every carrier and key, `Get` returns the empty string when the
store is unattached (nil), the key is absent, or the entry at the key has
no string payload, and returns the entry's string payload otherwise; being
a total function into `String`, it never fails or signals an error. -/
theorem C5_get_contract (c : SqsCarrierAttributes) (k : String) :
    (c.messageAttributes = none → c.Get k = "") ∧
    (∀ m : AttrMap, c.messageAttributes = some m →
      attrLookup m k = none → c.Get k = "") ∧
    (∀ (m : AttrMap) (a : MessageAttributeValue),
      c.messageAttributes = some m → attrLookup m k = some a →
      a.stringValue = none → c.Get k = "") ∧
    (∀ (m : AttrMap) (a : MessageAttributeValue) (s : String),
      c.messageAttributes = some m → attrLookup m k = some a →
      a.stringValue = some s → c.Get k = s) := by
  refine ⟨?_, ?_, ?_, ?_⟩
  · intro h
    simp [SqsCarrierAttributes.Get, h]
  · intro m h1 h2
    simp [SqsCarrierAttributes.Get, h1, h2]
  · intro m a h1 h2 h3
    simp [SqsCarrierAttributes.Get, h1, h2, h3]
  · intro m a s h1 h2 h3
    simp [SqsCarrierAttributes.Get, h1, h2, h3]

/-- C5 witness: an attached single-entry store read back by `Get`, and an
unattached carrier reading the empty string. -/
theorem C5_witness :
    SqsCarrierAttributes.Get
        ⟨some [("b3", ⟨some stringType, some "abc", none⟩)], b3Propagator⟩
        "b3" = "abc" ∧
    SqsCarrierAttributes.Get ⟨none, b3Propagator⟩ "b3" = "" :=
  ⟨(C5_get_contract
      ⟨some [("b3", ⟨some stringType, some "abc", none⟩)], b3Propagator⟩
      "b3").2.2.2 [("b3", ⟨some stringType, some "abc", none⟩)]
      ⟨some stringType, some "abc", none⟩ "abc" rfl
      (by simp [attrLookup]) rfl,
    (C5_get_contract ⟨none, b3Propagator⟩ "b3").1 rfl⟩

/-- C6: on an attached store, `Set k v1` then `Set k v2` leaves `Get k`
equal to `v2` and `k` among `Keys`; the key count grows by exactly one
when `k` was absent from the store beforehand and is unchanged when it was
present. -/
theorem C6_set_overwrite (c : SqsCarrierAttributes) (m : AttrMap)
    (k v1 v2 : String) (h : c.messageAttributes = some m) :
    ((c.Set k v1).Set k v2).Get k = v2 ∧
    k ∈ ((c.Set k v1).Set k v2).Keys ∧
    (attrHasKey m k = false →
      ((c.Set k v1).Set k v2).Keys.length = c.Keys.length + 1) ∧
    (attrHasKey m k = true →
      ((c.Set k v1).Set k v2).Keys.length = c.Keys.length) := by
  rw [Set_attached c m k v1 h,
    Set_attached _ (attrInsert m k ⟨some stringType, some v1, none⟩) k v2 rfl]
  refine ⟨?_, ?_, ?_, ?_⟩
  · simp [SqsCarrierAttributes.Get, attrLookup_attrInsert_self]
  · simp only [SqsCarrierAttributes.Keys]
    exact mem_map_fst_attrInsert _ _ _
  · intro hfresh
    simp [SqsCarrierAttributes.Keys, h, length_attrInsert,
      attrHasKey_attrInsert_self, hfresh]
  · intro hpres
    simp [SqsCarrierAttributes.Keys, h, length_attrInsert,
      attrHasKey_attrInsert_self, hpres]

/-- C6 witness: overwrite on a concrete attached store, with the final read
and the key count observed concretely. -/
theorem C6_witness :
    (((⟨some [], b3Propagator⟩ : SqsCarrierAttributes).Set "k" "a").Set
        "k" "b").Get "k" = "b" ∧
    (((⟨some [], b3Propagator⟩ : SqsCarrierAttributes).Set "k" "a").Set
        "k" "b").Keys.length =
      (⟨some [], b3Propagator⟩ : SqsCarrierAttributes).Keys.length + 1 :=
  ⟨(C6_set_overwrite ⟨some [], b3Propagator⟩ [] "k" "a" "b" rfl).1,
    (C6_set_overwrite ⟨some [], b3Propagator⟩ [] "k" "a" "b" rfl).2.2.1 rfl⟩

/-- C7: for every key and value, `Set` on a carrier with no attached store
is a no-op: the carrier is unchanged (hence so is every observable —
every `Get` and `Keys`), and the embedding is total, so nothing fails or
panics. -/
theorem C7_set_unattached_noop (c : SqsCarrierAttributes) (k v : String)
    (h : c.messageAttributes = none) :
    c.Set k v = c ∧ (∀ k2, (c.Set k v).Get k2 = c.Get k2) ∧
    (c.Set k v).Keys = c.Keys := by
  have heq := Set_unattached c k v h
  exact ⟨heq, fun k2 => by rw [heq], by rw [heq]⟩

/-- C7 witness: `Set` on a freshly constructed (unattached) carrier. -/
theorem C7_witness :
    (NewCarrier b3Propagator).Set "k" "v" = NewCarrier b3Propagator :=
  (C7_set_unattached_noop (NewCarrier b3Propagator) "k" "v" rfl).1

/-- C8: the propagator is read at carrier-construction time: a carrier
built while the process-wide default is `p1` keeps `p1` for its
`Inject`/`Extract` even after `SetTextMapPropagator` replaces the default
with `p2`; only a carrier built afterwards uses `p2`.  On an empty store,
the first carrier's `Inject` performs exactly `p1`'s writes and its
`Extract` returns exactly `p1`'s extraction, while the second carrier's
`Inject` performs `p2`'s writes. -/
theorem C8_propagator_read_at_construction (p1 p2 : Propagator)
    (ctx : Context) :
    (NewCarrier p1).propagator = p1 ∧
    (NewCarrier (SetTextMapPropagator p2 p1)).propagator = p2 ∧
    ((NewCarrier p1).Inject ctx (some [])).err = none ∧
    ((NewCarrier p1).Inject ctx (some [])).store =
      some (storeOfWrites (p1.injectWrites ctx) []) ∧
    ((NewCarrier (SetTextMapPropagator p2 p1)).Inject ctx (some [])).store =
      some (storeOfWrites (p2.injectWrites ctx) []) ∧
    ((NewCarrier p1).Extract ctx (some [])).1 =
      p1.extract ctx (fun _ => "") := by
  have hget : ∀ p : Propagator,
      (fun k => SqsCarrierAttributes.Get ⟨some [], p⟩ k) =
        (fun _ : String => "") := by
    intro p
    funext k
    simp [SqsCarrierAttributes.Get, attrLookup]
  have hinj : ∀ p : Propagator,
      (NewCarrier p).Inject ctx (some []) =
        ⟨none,
          { messageAttributes := some (storeOfWrites (p.injectWrites ctx) []),
            propagator := p },
          some (storeOfWrites (p.injectWrites ctx) [])⟩ := by
    intro p
    have hfold := foldl_Set_attached (p.injectWrites ctx)
      ⟨some [], p⟩ [] rfl
    simp only [SqsCarrierAttributes.Inject, sqsMessageAttributeLimit,
      NewCarrier, SqsCarrierAttributes.WithPropagator,
      SqsCarrierAttributes.attach]
    simp [hfold]
  refine ⟨rfl, rfl, ?_, ?_, ?_, ?_⟩
  · rw [hinj p1]
  · rw [hinj p1]
  · simp only [SetTextMapPropagator]
    rw [hinj p2]
  · simp [SqsCarrierAttributes.Extract, NewCarrier,
      SqsCarrierAttributes.WithPropagator, SqsCarrierAttributes.attach,
      hget p1]

/-- C9: every entry written by `Set` on an attached store carries the type
tag `String` and a non-absent string payload equal to the written value
(and no binary payload), so the inject path's writes are readable back by
`Get`. -/
theorem C9_set_writes_string_tagged (c : SqsCarrierAttributes) (m : AttrMap)
    (k v : String) (h : c.messageAttributes = some m) :
    ∃ a : MessageAttributeValue,
      (c.Set k v).messageAttributes = some (attrInsert m k a) ∧
      a.dataType = some stringType ∧ a.stringValue = some v ∧
      a.binaryValue = none ∧ (c.Set k v).Get k = v := by
  refine ⟨⟨some stringType, some v, none⟩, ?_, rfl, rfl, rfl, ?_⟩
  · rw [Set_attached c m k v h]
  · rw [Set_attached c m k v h]
    simp [SqsCarrierAttributes.Get, attrLookup_attrInsert_self]

/-- C9 witness: the written entry at a concrete carrier and key. -/
theorem C9_witness :
    ∃ a : MessageAttributeValue,
      ((⟨some [], b3Propagator⟩ : SqsCarrierAttributes).Set "k"
          "v").messageAttributes = some (attrInsert [] "k" a) ∧
      a.dataType = some stringType ∧ a.stringValue = some "v" ∧
      a.binaryValue = none ∧
      ((⟨some [], b3Propagator⟩ : SqsCarrierAttributes).Set "k" "v").Get "k"
        = "v" :=
  C9_set_writes_string_tagged ⟨some [], b3Propagator⟩ [] "k" "v" rfl

/-- C10: the read path never modifies the store: any sequence of
state-threaded `Get` and `Keys` calls leaves the carrier — in particular
its attached map, with all keys, type tags and payloads — identical. -/
theorem C10_read_path_frame (ops : List ReadOp) (c : SqsCarrierAttributes) :
    runReadOps ops c = c ∧
    (runReadOps ops c).messageAttributes = c.messageAttributes := by
  have h : ∀ (l : List ReadOp) (cc : SqsCarrierAttributes),
      runReadOps l cc = cc := by
    intro l
    induction l with
    | nil => intro cc; rfl
    | cons op rest ih =>
      intro cc
      cases op <;> simpa [runReadOps, GetThreaded, KeysThreaded] using ih cc
  exact ⟨h ops c, by rw [h ops c]⟩

end Otelsqs
